import Mathlib

/-!
Verification development for the mailagent backend (Python sources under
`backend/`).  Python strings are modelled as `List Char` (`PyStr`); machine
integers are `Nat`/`Int`; fallible code returns `Except`/`Option`.  Each
definition is a shallow embedding of the correspondingly named Python
function; external collaborators (the LM Studio inference endpoint, the
Gmail provider) are modelled as explicit outcome parameters, so that the
control flow of the repository's own code is what the theorems speak about.
-/

namespace MailAgent

/-! ## Python string primitives -/

/-- Python strings, modelled as lists of characters. -/
abbrev PyStr := List Char

/-- Whitespace test used by the Python `str.strip` method (model: ASCII whitespace;
Python also strips some additional unicode space characters, none of which
occur in the data of this repository). -/
def isSpace (c : Char) : Bool := c.isWhitespace

/-- Leading-whitespace removal (`str.lstrip`). -/
def dropLeadWS (l : PyStr) : PyStr := l.dropWhile isSpace

/-- Trailing-whitespace removal (`str.rstrip`). -/
def dropTrailWS (l : PyStr) : PyStr := (l.reverse.dropWhile isSpace).reverse

/-- Python `str.strip()`. -/
def pyStrip (l : PyStr) : PyStr := dropTrailWS (dropLeadWS l)

/-- Python `str.startswith`. -/
def listStartsWith : PyStr → PyStr → Bool
  | [], _ => true
  | _ :: _, [] => false
  | p :: ps, c :: cs => p == c && listStartsWith ps cs

/-- Python `str.endswith`. -/
def listEndsWith (suf l : PyStr) : Bool := listStartsWith suf.reverse l.reverse

/-- Python substring containment (`needle in haystack`). -/
def substrB : PyStr → PyStr → Bool
  | k, [] => listStartsWith k []
  | k, c :: rest => listStartsWith k (c :: rest) || substrB k rest

/-- Decimal rendering of a natural number (Python `str(n)` / f-string). -/
def natToStr (n : Nat) : PyStr := (Nat.repr n).data

/-- Backtick character (fenced-code marker), written by code point. -/
def btChar : Char := Char.ofNat 96

/-- Opening curly brace, written by code point. -/
def lbChar : Char := Char.ofNat 123

/-- Closing curly brace, written by code point. -/
def rbChar : Char := Char.ofNat 125

/-- Opening square bracket. -/
def lbkChar : Char := Char.ofNat 91

/-- Closing square bracket. -/
def rbkChar : Char := Char.ofNat 93

/-- Double-quote character. -/
def quoteCh : Char := Char.ofNat 34

/-- Backslash character. -/
def bsChar : Char := Char.ofNat 92

/-! ## config.py : Settings -/

/-- `Settings.IMPORTANCE_LEVELS` from `config.py`. -/
def IMPORTANCE_LEVELS : List PyStr := ["high".data, "medium".data, "low".data]

/-- `Settings.CATEGORIES` from `config.py` (note: French spellings). -/
def CATEGORIES : List PyStr :=
  ["professionnel".data, "personnel".data, "newsletter".data,
   "notification".data, "urgent".data, "commercial".data, "administratif".data]

/-- `Settings.RESPONSE_TONES` from `config.py`; also the local `tones` list in
`ResponseGenerator.get_or_generate_responses`. -/
def RESPONSE_TONES : List PyStr := ["formal".data, "casual".data, "neutral".data]

/-! ## llm_service.py : LLMService -/

/-- Error taxonomy of `llm_service.py`: `LLMTimeoutError`, `LLMConnectionError`
and the base `LLMServiceError` (callers catching `LLMServiceError` catch all
three, so a single sum type models the hierarchy). -/
inductive LLMError
  | timeoutE (msg : PyStr)
  | connectE (msg : PyStr)
  | serviceE (msg : PyStr)
deriving DecidableEq

/-- What one HTTP attempt against the inference endpoint can do, from the
point of view of the `try`/`except` arms in `LLMService.call_llm`. -/
inductive AttemptOutcome
  | ok (content : PyStr)  -- 2xx response with well-formed payload
  | timeout               -- httpx.TimeoutException
  | connectError          -- httpx.ConnectError
  | statusError (code : Nat)  -- httpx.HTTPStatusError (non-2xx reply)
  | badFormat             -- KeyError/IndexError on the payload shape
  | otherError            -- any other exception
deriving DecidableEq

/-- Message of the terminal `LLMTimeoutError`
(the f-string naming the configured timeout in seconds). -/
def timeout_error_msg (tcfg : Nat) : PyStr :=
  "LM Studio request timed out after ".data ++ natToStr tcfg ++ " seconds".data

/-- Message of the terminal `LLMConnectionError` raised by `call_llm`. -/
def connect_error_msg : PyStr :=
  "Cannot connect to LM Studio. Ensure it is running and accessible.".data

/-- Message of the `LLMServiceError` raised on a non-2xx status reply. -/
def status_error_msg (code : Nat) : PyStr :=
  "LM Studio returned error: ".data ++ natToStr code

/-- Message of the `LLMServiceError` raised on a malformed payload shape. -/
def format_error_msg : PyStr :=
  "Unexpected response format from LM Studio".data

/-- Message of the `LLMServiceError` raised by the catch-all arm. -/
def unexpected_error_msg : PyStr :=
  "Unexpected error calling LM Studio".data

/-- Message of the unreachable post-loop raise in `call_llm`. -/
def exhausted_msg : PyStr :=
  "Failed to complete request after 3 attempts".data

/-- Result of one iteration of the retry loop in `call_llm`: either the loop
terminates (return or raise) or it sleeps and retries. -/
inductive StepRes
  | done (r : Except LLMError PyStr)
  | retry (sleepUnits : Nat)

/-- One iteration of the `for attempt in range(3)` body of
`LLMService.call_llm`: `attempt` is the 0-based loop index, `tcfg` the
configured timeout.  Sleeps are `2 ** (attempt + 1)` units. -/
def attemptStep (o : AttemptOutcome) (attempt : Nat) (tcfg : Nat) : StepRes :=
  match o with
  | .ok content => .done (.ok content)
  | .timeout =>
      if attempt = 2 then .done (.error (.timeoutE (timeout_error_msg tcfg)))
      else .retry (2 ^ (attempt + 1))
  | .statusError code => .done (.error (.serviceE (status_error_msg code)))
  | .connectError =>
      if attempt = 2 then .done (.error (.connectE connect_error_msg))
      else .retry (2 ^ (attempt + 1))
  | .badFormat => .done (.error (.serviceE format_error_msg))
  | .otherError =>
      if attempt = 2 then .done (.error (.serviceE unexpected_error_msg))
      else .retry (2 ^ (attempt + 1))

/-- `LLMService.call_llm`: the endpoint is abstracted as a map from attempt
index to outcome.  Returns the result (returned text or raised error), the
number of attempts actually made, and the list of sleep durations performed
between attempts, in order. -/
def call_llm (o : Nat → AttemptOutcome) (tcfg : Nat) :
    Except LLMError PyStr × Nat × List Nat :=
  match attemptStep (o 0) 0 tcfg with
  | .done r => (r, 1, [])
  | .retry s0 =>
    match attemptStep (o 1) 1 tcfg with
    | .done r => (r, 2, [s0])
    | .retry s1 =>
      match attemptStep (o 2) 2 tcfg with
      | .done r => (r, 3, [s0, s1])
      | .retry _ => (.error (.serviceE exhausted_msg), 3, [s0, s1])

/-- `LLMService.estimate_tokens`: `len(text) // 4`. -/
def estimate_tokens (t : PyStr) : Nat := t.length / 4

/-- The trailing marker appended by `truncate_for_context`. -/
def truncMarker : PyStr := "... [truncated]".data

/-- `LLMService.truncate_for_context`. -/
def truncate_for_context (t : PyStr) (maxTokens : Nat) : PyStr :=
  if estimate_tokens t ≤ maxTokens then t
  else t.take (maxTokens * 4) ++ truncMarker

/-! ## classifier.py : Classifier -/

/-- The post-processing `result.strip().lower().replace(".", "").replace(",", "")`
applied by both classifiers.  (`Char.toLower` models Python `str.lower` on the
ASCII vocabulary the comparison targets.) -/
def normalizeLabel (r : PyStr) : PyStr :=
  (((pyStrip r).map Char.toLower).filter (fun c => !(c == '.'))).filter
    (fun c => !(c == ','))

/-- `Classifier.classify_importance`, as a function of the outcome of its
single `call_llm` invocation (`.error e` models a raised `LLMServiceError`). -/
def classify_importance (outcome : Except LLMError PyStr) : PyStr :=
  match outcome with
  | .error _ => "medium".data
  | .ok r =>
      let res := normalizeLabel r
      if res ∉ IMPORTANCE_LEVELS then "medium".data else res

/-- `Classifier.classify_category`, analogously. -/
def classify_category (outcome : Except LLMError PyStr) : PyStr :=
  match outcome with
  | .error _ => "professionnel".data
  | .ok r =>
      let res := normalizeLabel r
      if res ∉ CATEGORIES then "professionnel".data else res

/-! ## JSON values and `json.loads`

The repository calls the Python `json.loads` function on model responses.  We embed a
recursive-descent parser for the JSON fragment those call sites exercise:
null/true/false, integer numbers, strings with single-character escapes,
arrays, objects.  Model restrictions (documented, none reachable from the
repository's own data): fractional/exponent numbers and `\uXXXX` escapes are
rejected. -/

/-- JSON values (`json.loads` results). -/
inductive Json
  | null
  | bool (b : Bool)
  | num (n : Int)
  | str (s : PyStr)
  | arr (xs : List Json)
  | obj (kvs : List (PyStr × Json))

/-- JSON whitespace skipping (same whitespace set as `isSpace`). -/
def skipWs (l : PyStr) : PyStr := l.dropWhile isSpace

/-- Single-character JSON string escapes (`\n`, `\t`, `\r`, `\b`, `\f`,
`\"`, `\\`, `\/`; anything else maps to itself). -/
def unescapeCh (e : Char) : Char :=
  if e == 'n' then '\n'
  else if e == 't' then '\t'
  else if e == 'r' then '\r'
  else if e == 'b' then Char.ofNat 8
  else if e == 'f' then Char.ofNat 12
  else e

/-- Parse the body of a JSON string after the opening quote; returns the
decoded characters and the remaining input after the closing quote. -/
def parseStringBody : PyStr → Option (PyStr × PyStr)
  | [] => none
  | [c] => if c == quoteCh then some ([], []) else none
  | c :: d :: rest =>
      if c == quoteCh then some ([], d :: rest)
      else if c == bsChar then
        if d == 'u' then none
        else (parseStringBody rest).map (fun p => (unescapeCh d :: p.1, p.2))
      else (parseStringBody (d :: rest)).map (fun p => (c :: p.1, p.2))

/-- Digit test. -/
def isDigitCh (c : Char) : Bool := '0' ≤ c && c ≤ '9'

/-- Accumulate decimal digits. -/
def digitsToNat : PyStr → Nat → Nat
  | [], acc => acc
  | c :: cs, acc => digitsToNat cs (acc * 10 + (c.toNat - 48))

/-- Parse an integer JSON number starting at `l` (sign already handled by the
caller); fails on empty digit runs and on fractional/exponent continuations. -/
def parseNumBody (l : PyStr) : Option (Nat × PyStr) :=
  let ds := l.takeWhile isDigitCh
  let rest := l.dropWhile isDigitCh
  if ds.isEmpty then none
  else
    match rest with
    | c :: _ => if c == '.' || c == 'e' || c == 'E' then none
                else some (digitsToNat ds 0, rest)
    | [] => some (digitsToNat ds 0, [])

mutual

/-- Parse one JSON value; `fuel` bounds the recursion depth (callers pass the
input length, which suffices since every nested construct consumes input). -/
def parseValue : Nat → PyStr → Option (Json × PyStr)
  | 0, _ => none
  | fuel + 1, input =>
    let l := skipWs input
    if listStartsWith "null".data l then some (.null, l.drop 4)
    else if listStartsWith "true".data l then some (.bool true, l.drop 4)
    else if listStartsWith "false".data l then some (.bool false, l.drop 5)
    else
      match l with
      | [] => none
      | c :: rest =>
        if c == quoteCh then
          match parseStringBody rest with
          | some (s, r) => some (.str s, r)
          | none => none
        else if c == lbChar then
          match skipWs rest with
          | rc :: rr =>
            if rc == rbChar then some (.obj [], rr)
            else
              match parseMembers fuel (skipWs rest) with
              | some (kvs, r) => some (.obj kvs, r)
              | none => none
          | [] => none
        else if c == lbkChar then
          match skipWs rest with
          | rc :: rr =>
            if rc == rbkChar then some (.arr [], rr)
            else
              match parseItems fuel (skipWs rest) with
              | some (xs, r) => some (.arr xs, r)
              | none => none
          | [] => none
        else if c == '-' then
          match parseNumBody rest with
          | some (n, r) => some (.num (-(n : Int)), r)
          | none => none
        else if isDigitCh c then
          match parseNumBody (c :: rest) with
          | some (n, r) => some (.num (n : Int), r)
          | none => none
        else none

/-- Parse the members of a JSON object, positioned at the first key. -/
def parseMembers : Nat → PyStr → Option (List (PyStr × Json) × PyStr)
  | 0, _ => none
  | fuel + 1, l =>
    match l with
    | c :: rest =>
      if c == quoteCh then
        match parseStringBody rest with
        | some (k, r1) =>
          match skipWs r1 with
          | c2 :: r3 =>
            if c2 == ':' then
              match parseValue fuel r3 with
              | some (v, r4) =>
                match skipWs r4 with
                | c3 :: r6 =>
                  if c3 == ',' then
                    match parseMembers fuel (skipWs r6) with
                    | some (kvs, r7) => some ((k, v) :: kvs, r7)
                    | none => none
                  else if c3 == rbChar then some ([(k, v)], r6)
                  else none
                | [] => none
              | none => none
            else none
          | [] => none
        | none => none
      else none
    | [] => none

/-- Parse the items of a JSON array, positioned at the first item. -/
def parseItems : Nat → PyStr → Option (List Json × PyStr)
  | 0, _ => none
  | fuel + 1, l =>
    match parseValue fuel l with
    | some (v, r) =>
      match skipWs r with
      | c :: r3 =>
        if c == ',' then
          match parseItems fuel r3 with
          | some (xs, r4) => some (v :: xs, r4)
          | none => none
        else if c == rbkChar then some ([v], r3)
        else none
      | [] => none
    | none => none

end

/-- `json.loads`: parse one value and require only whitespace to remain
(Python raises on trailing data). -/
def jsonLoads (l : PyStr) : Option Json :=
  match parseValue (l.length + 1) l with
  | some (v, rest) => if (skipWs rest).isEmpty then some v else none
  | none => none

/-! ## Structured-output extraction

`LLMService.call_llm_json` and `ResponseGenerator._parse_response_json` share
the same fence-stripping preamble but differ afterwards: only the latter has
the first-brace/last-brace fallback. -/

/-- Bare fenced-code marker. -/
def fence3 : PyStr := [btChar, btChar, btChar]

/-- Fenced-code marker with `json` language tag. -/
def fenceJson : PyStr := [btChar, btChar, btChar, 'j', 's', 'o', 'n']

/-- `if response_clean.startswith("\x60\x60\x60json"): response_clean = response_clean[7:]`. -/
def stripLeadFenceJson (l : PyStr) : PyStr :=
  if listStartsWith fenceJson l then l.drop 7 else l

/-- `if response_clean.startswith("\x60\x60\x60"): response_clean = response_clean[3:]`. -/
def stripLeadFence3 (l : PyStr) : PyStr :=
  if listStartsWith fence3 l then l.drop 3 else l

/-- `if response_clean.endswith("\x60\x60\x60"): response_clean = response_clean[:-3]`. -/
def stripTrailFence (l : PyStr) : PyStr :=
  if listEndsWith fence3 l then l.take (l.length - 3) else l

/-- The common cleaning preamble: strip, drop a leading fence marker (with or
without the `json` tag), drop a trailing fence marker, strip again. -/
def cleanFences (resp : PyStr) : PyStr :=
  pyStrip (stripTrailFence (stripLeadFence3 (stripLeadFenceJson (pyStrip resp))))

/-- A model response wrapped in a fenced-code block with `json` tag
(the shape the extraction preamble is designed to undo). -/
def wrapJsonFence (j : PyStr) : PyStr := fenceJson ++ '\n' :: (j ++ '\n' :: fence3)

/-- A model response wrapped in a bare fenced-code block. -/
def wrapBareFence (j : PyStr) : PyStr := fence3 ++ '\n' :: (j ++ '\n' :: fence3)

/-- The error raised when structured output cannot be recovered
(`LLMServiceError("LLM returned invalid JSON: ...")` in `call_llm_json`,
re-raised `json.JSONDecodeError` in `_parse_response_json`). -/
inductive ExtractErr
  | invalidJson
deriving DecidableEq

/-- The JSON-extraction phase of `LLMService.call_llm_json` (everything after
the inner `call_llm` returns): clean fences, one direct parse, no fallback. -/
def call_llm_json_extract (resp : PyStr) : Except ExtractErr Json :=
  match jsonLoads (cleanFences resp) with
  | some v => .ok v
  | none => .error .invalidJson

/-- `LLMService.call_llm_json` end to end: runs the retrying `call_llm` and
feeds a successful response through the extraction phase. -/
def call_llm_json (o : Nat → AttemptOutcome) (tcfg : Nat) : Except LLMError (Except ExtractErr Json) :=
  match (call_llm o tcfg).1 with
  | .ok r => .ok (call_llm_json_extract r)
  | .error e => .error e

/-- Python `str.find` for a single character (`-1` when absent). -/
def pyFindChar (c : Char) (l : PyStr) : Int :=
  match l.findIdx? (fun x => x == c) with
  | some i => (i : Int)
  | none => -1

/-- Python `str.rfind` for a single character (`-1` when absent). -/
def pyRfindChar (c : Char) (l : PyStr) : Int :=
  match l.reverse.findIdx? (fun x => x == c) with
  | some i => (l.length - 1 - i : Int)
  | none => -1

/-- Python slice `l[a:b]` for `0 ≤ a ≤ b` (the only use below). -/
def pySliceNat (l : PyStr) (a b : Nat) : PyStr := (l.drop a).take (b - a)

/-- The `except json.JSONDecodeError` arm of `_parse_response_json`: locate
`start = rc.find("\x7b")`, `end = rc.rfind("\x7d") + 1`, and when
`start >= 0 and end > start` parse the slice; otherwise re-raise. -/
def braceFallback (rc : PyStr) : Except ExtractErr Json :=
  if 0 ≤ pyFindChar lbChar rc ∧ pyFindChar lbChar rc < pyRfindChar rbChar rc + 1 then
    match jsonLoads (pySliceNat rc (pyFindChar lbChar rc).toNat
        (pyRfindChar rbChar rc + 1).toNat) with
    | some v => .ok v
    | none => .error .invalidJson
  else .error .invalidJson

/-- The JSON-extraction phase of `ResponseGenerator._parse_response_json`
(lines 157-180): clean fences, direct parse, and on failure the
first-brace/last-brace fallback. -/
def parse_response_json_parsed (resp : PyStr) : Except ExtractErr Json :=
  match jsonLoads (cleanFences resp) with
  | some v => .ok v
  | none => braceFallback (cleanFences resp)

/-- The placeholder substituted for a missing variant key. -/
def placeholderStr : PyStr :=
  "Thank you for your email. I will review and get back to you shortly.".data

/-- The three fixed variant keys probed by `_parse_response_json`. -/
def variantKeys : List PyStr := ["variant1".data, "variant2".data, "variant3".data]

/-- Python dict lookup `parsed[key]` on a decoded JSON object; `json.loads`
keeps the last occurrence of a duplicated key, hence the reversed search. -/
def dictLookup (kvs : List (PyStr × Json)) (k : PyStr) : Option Json :=
  (kvs.reverse.find? (fun p => p.1 == k)).map (fun p => p.2)

/-- Python `key in parsed` on a decoded JSON value.  `none` models a raised
`TypeError` (membership test on a number/bool/null). -/
def jsonContainsKey (parsed : Json) (k : PyStr) : Option Bool :=
  match parsed with
  | .obj kvs => some (kvs.any (fun p => p.1 == k))
  | .arr xs => some (xs.any (fun x => match x with | .str s => s == k | _ => false))
  | .str s => some (substrB k s)
  | _ => none

/-- Python `parsed[key]` on a decoded JSON value; `none` models a raised
`TypeError`/`KeyError` (string/list indexed by a string key, absent key). -/
def jsonGetKey (parsed : Json) (k : PyStr) : Option Json :=
  match parsed with
  | .obj kvs => dictLookup kvs k
  | _ => none

/-- The fill loop of `_parse_response_json` (lines 182-189): for each of the
three variant keys take `parsed[key]` when present, else the placeholder.
`none` models an uncaught Python `TypeError`/`KeyError` escaping the loop. -/
def fillGo : List PyStr → Json → Option (List (PyStr × Json))
  | [], _ => some []
  | k :: ks, parsed =>
    match jsonContainsKey parsed k with
    | none => none
    | some true =>
      match jsonGetKey parsed k with
      | none => none
      | some v => (fillGo ks parsed).map (fun r => (k, v) :: r)
    | some false => (fillGo ks parsed).map (fun r => (k, Json.str placeholderStr) :: r)

/-- Errors observable from `ResponseGenerator._parse_response_json`:
the re-raised decode error, or an uncaught dynamic-typing error. -/
inductive RGError
  | decodeErr
  | typeErr
deriving DecidableEq

/-- `ResponseGenerator._parse_response_json` end to end: extraction phase
followed by the variant fill. -/
def parse_response_json (resp : PyStr) : Except RGError (List (PyStr × Json)) :=
  match parse_response_json_parsed resp with
  | .error _ => .error .decodeErr
  | .ok parsed =>
    match fillGo variantKeys parsed with
    | some kvs => .ok kvs
    | none => .error .typeErr

/-! ## response_generator.py : ResponseGenerator -/

/-- Errors escaping `ResponseGenerator.generate_responses`: the re-raised
`LLMServiceError`, the re-raised decode error, or a dynamic-typing error. -/
inductive GenError
  | llmE (e : LLMError)
  | decodeE
  | typeE
deriving DecidableEq

/-- `ResponseGenerator.generate_responses`, as a function of the outcome of
its single `call_llm` invocation: a gateway error propagates (`raise`), a
successful response goes through `_parse_response_json`. -/
def generate_responses (outcome : Except LLMError PyStr) :
    Except GenError (List (PyStr × Json)) :=
  match outcome with
  | .error e => .error (.llmE e)
  | .ok text =>
    match parse_response_json text with
    | .ok kvs => .ok kvs
    | .error .decodeErr => .error .decodeE
    | .error .typeErr => .error .typeE

/-- `ResponseGenerator.improve_response`, as a function of the current draft
and the outcome of its single `call_llm` invocation: a gateway error returns
the unmodified draft, success returns the stripped response. -/
def improve_response (draft : PyStr) (outcome : Except LLMError PyStr) : PyStr :=
  match outcome with
  | .error _ => draft
  | .ok r => pyStrip r

/-- The prompt built by `improve_response` (body truncated to 1000 chars). -/
def improve_prompt (from_addr subject body_text draft feedback : PyStr) : PyStr :=
  "Original email:\nFrom: ".data ++ from_addr ++ "\nSubject: ".data ++ subject
    ++ "\n\n".data ++ body_text.take 1000
    ++ "\n\nCurrent draft response:\n".data ++ draft
    ++ "\n\nUser feedback:\n".data ++ feedback
    ++ "\n\nPlease improve the draft based on the feedback.".data

/-! ## database.py : the Message Store, as the code uses it -/

/-- One row of the `responses` table. -/
structure ResponseRow where
  id : Nat
  email_id : PyStr
  variant_number : Nat
  content : Json
  tone : PyStr
  sent : Bool

/-- The per-draft dict shape the comprehension and the save loop of
`get_or_generate_responses` are written to build (never completed in the
current code, see `rowsToDicts` and `saveLoop`). -/
structure DraftDict where
  id : Nat
  variant_number : Nat
  content : Json
  tone : PyStr
  sent : Bool

/-- One row of the `emails` table (the fields the modelled code reads). -/
structure EmailRec where
  id : PyStr
  from_addr : PyStr
  subject : PyStr
  body_text : PyStr
  importance : Option PyStr
  category : Option PyStr
  ai_summary : Option PyStr
deriving DecidableEq

/-- One row of the `sync_history` table (`EmailDB.log_sync`). -/
structure SyncAudit where
  fetched : Nat
  processed : Nat
  errors : Option (List PyStr)
  duration : Nat
deriving DecidableEq

/-- The store state: table contents plus the autoincrement counter for
response ids.  Rows are kept in insertion (rowid) order, which is the order
un-ordered SQLite queries return them in. -/
structure DBState where
  emails : List EmailRec
  responses : List ResponseRow
  audits : List SyncAudit
  nextRespId : Nat

/-- `EmailDB.get_email`: first row with the given id (`query.first()`). -/
def get_email (st : DBState) (eid : PyStr) : Option EmailRec :=
  st.emails.find? (fun r => r.id == eid)

/-- `EmailDB.create_email`: insert a new row. -/
def create_email (st : DBState) (rec : EmailRec) : DBState :=
  { st with emails := st.emails ++ [rec] }

/-- `EmailDB.get_responses`: all rows for the message, in rowid order. -/
def get_responses (st : DBState) (eid : PyStr) : List ResponseRow :=
  st.responses.filter (fun r => r.email_id == eid)

/-- `EmailDB.save_response`: insert a row with a fresh autoincrement id,
`sent` defaulting to false; returns the refreshed row. -/
def save_response (st : DBState) (eid : PyStr) (n : Nat) (content : Json)
    (tone : PyStr) : ResponseRow × DBState :=
  let row : ResponseRow :=
    { id := st.nextRespId, email_id := eid, variant_number := n,
      content := content, tone := tone, sent := false }
  (row, { st with responses := st.responses ++ [row], nextRespId := st.nextRespId + 1 })

/-- `EmailDB.log_sync`: append one audit row; an empty error list is stored
as NULL (`errors if errors else None`). -/
def log_sync (st : DBState) (fetched processed : Nat) (errors : List PyStr)
    (duration : Nat) : DBState :=
  { st with audits := st.audits ++
      [{ fetched := fetched, processed := processed,
         errors := if errors.isEmpty then none else some errors,
         duration := duration }] }

/-- Positional tone assignment of the save loop:
`tones[i - 1] if i <= len(tones) else "neutral"` (1-based `i`). -/
def toneFor (i : Nat) : PyStr :=
  if i ≤ RESPONSE_TONES.length then RESPONSE_TONES.getD (i - 1) "neutral".data
  else "neutral".data

/-- The value `_parse_response_json` puts under a variant key: the parsed
entry of the parsed object when the key is present, else the placeholder sentence. -/
def fillVal (kvs : List (PyStr × Json)) (k : PyStr) : Json :=
  match dictLookup kvs k with
  | some v => v
  | none => Json.str placeholderStr

/-- Errors escaping `get_or_generate_responses`: the `ValueError` for an
absent message, a propagated generation error (what the code would raise if
generation were reached — it is not, see `attrE`), or a Python
`AttributeError` carrying the name of the attribute whose read failed:
`db.get_responses`, `db.get_email` and `db.save_response` (database.py)
return plain dicts, while `response_generator.py` reads their results
attribute-style. -/
inductive AppError
  | notFound
  | genE (e : GenError)
  | attrE (attr : PyStr)
deriving DecidableEq

/-- The list comprehension at response_generator.py lines 103-112:
`db.get_responses` returns plain dicts and the comprehension reads `r.id`
(then `r.variant_number`, `r.content`, `r.tone`, `r.sent`) attribute-style,
so its first iteration raises `AttributeError`; over an empty list the
comprehension body never runs and it yields the empty list. -/
def rowsToDicts : List ResponseRow → Except AppError (List DraftDict)
  | [] => .ok []
  | _ :: _ => .error (.attrE "id".data)

/-- The save loop of `get_or_generate_responses` (lines 126-142):
`enumerate(responses_dict.items(), 1)` with positional tone assignment
(`tones[i - 1] if i <= len(tones) else "neutral"`).  `db.save_response`
persists and commits the row and returns a plain dict; the loop body then
reads `response.id` attribute-style (line 134), so the first iteration
raises `AttributeError` after exactly one row has been persisted.  Over an
empty map the loop body never runs. -/
def saveLoop (st : DBState) (eid : PyStr) (kvs : List (PyStr × Json))
    (i : Nat) : Except AppError (List DraftDict) × DBState :=
  match kvs with
  | [] => (.ok [], st)
  | (_k, content) :: _rest =>
    (.error (.attrE "id".data), (save_response st eid i content (toneFor i)).2)

/-- `ResponseGenerator.get_or_generate_responses`.  `gen` is the outcome the
`call_llm` invocation of `generate_responses` would have; the last component
counts how many generation (inference) calls were issued.  `db.get_responses`
and `db.get_email` return plain dicts (database.py) while this function
reads their results attribute-style: with stored drafts the comprehension
raises `AttributeError` at `r.id` (line 105); with none and the message
present, building the argument of `generate_responses` raises
`AttributeError` at `email_data.from_addr` (line 120), before any
generation call is issued. -/
def get_or_generate_responses (st : DBState) (eid : PyStr)
    (_gen : Except LLMError PyStr) :
    Except AppError (List DraftDict) × DBState × Nat :=
  let existing := get_responses st eid
  if existing.isEmpty then
    match get_email st eid with
    | none => (.error .notFound, st, 0)
    | some _em => (.error (.attrE "from_addr".data), st, 0)
  else
    match rowsToDicts existing with
    | .ok ds => (.ok ds, st, 0)
    | .error e => (.error e, st, 0)

/-! ## gmail_service.py / main.py : the fetch-and-sync loop -/

/-- A parsed provider message (the dict `_parse_message` produces, restricted
to the fields the sync loop and enrichment read). -/
structure EmailData where
  id : PyStr
  from_addr : PyStr
  subject : PyStr
  body_text : PyStr
deriving DecidableEq

/-- Per-provider-message outcome inside `GmailService.sync_recent_emails`:
successful fetch-and-parse, a 429 rate-limit signal (sleep, message dropped),
another HTTP error (logged, dropped), or a parse failure (logged, dropped). -/
inductive FetchOutcome
  | fetched (e : EmailData)
  | rateLimited
  | httpFail (code : Nat)
  | parseFail
deriving DecidableEq

/-- `GmailService.sync_recent_emails`: only successfully fetched-and-parsed
messages are appended to the returned list; every failure arm merely logs
and continues to the next message. -/
def sync_recent_emails (outs : List FetchOutcome) : List EmailData :=
  outs.filterMap (fun o => match o with | .fetched e => some e | _ => none)

/-- The enrichment triple `classifier.classify_email` returns. -/
structure EnrichResult where
  importance : PyStr
  category : PyStr
  ai_summary : Option PyStr
deriving DecidableEq

/-- An arbitrary Python exception escaping the per-message try block. -/
inductive PyErr
  | exn (msg : PyStr)
deriving DecidableEq

/-- The error string accumulated per failed message: the literal `Email `,
then the message id, then `: `, then the exception text (the f-string in the
loop body). -/
def errString (eid msg : PyStr) : PyStr :=
  "Email ".data ++ eid ++ ": ".data ++ msg

/-- The row `db.create_email` builds from the (possibly enriched) dict. -/
def emailRecOf (e : EmailData) (cls : Option EnrichResult) : EmailRec :=
  { id := e.id, from_addr := e.from_addr, subject := e.subject,
    body_text := e.body_text,
    importance := match cls with | some c => some c.importance | none => none,
    category := match cls with | some c => some c.category | none => none,
    ai_summary := match cls with | some c => c.ai_summary | none => none }

/-- One iteration of the per-message loop in `sync_emails` (main.py lines
162-176).  The accumulator carries the store state, the processed count, the
error list, and the number of enrichment calls issued.  `enrich` abstracts
`classifier.classify_email` together with the possibility that the try-block
body raises. -/
def syncStep (enrich : EmailData → Except PyErr EnrichResult) (cf : Bool)
    (acc : DBState × Nat × List PyStr × Nat) (e : EmailData) :
    DBState × Nat × List PyStr × Nat :=
  match get_email acc.1 e.id with
  | some _ => acc
  | none =>
    if cf then
      match enrich e with
      | .error (.exn m) =>
        (acc.1, acc.2.1, acc.2.2.1 ++ [errString e.id m], acc.2.2.2 + 1)
      | .ok cls =>
        (create_email acc.1 (emailRecOf e (some cls)), acc.2.1 + 1,
         acc.2.2.1, acc.2.2.2 + 1)
    else
      (create_email acc.1 (emailRecOf e none), acc.2.1 + 1, acc.2.2.1, acc.2.2.2)

/-- The whole per-message loop of `sync_emails`. -/
def syncLoop (enrich : EmailData → Except PyErr EnrichResult) (cf : Bool)
    (emailsData : List EmailData) (st : DBState) :
    DBState × Nat × List PyStr × Nat :=
  emailsData.foldl (syncStep enrich cf) (st, 0, [], 0)

/-- `sync_emails` (main.py lines 152-199) after the provider fetch returned
`emailsData`: run the loop, then write exactly one audit row.  Returns the
new store state and the response body `(fetched, processed, errors)`. -/
def sync_emails (enrich : EmailData → Except PyErr EnrichResult) (cf : Bool)
    (emailsData : List EmailData) (st : DBState) (dur : Nat) :
    DBState × Nat × Nat × List PyStr :=
  let r := syncLoop enrich cf emailsData st
  (log_sync r.1 emailsData.length r.2.1 r.2.2.1 dur,
   emailsData.length, r.2.1, r.2.2.1)

/-- The `/api/sync` endpoint body: provider fetch followed by `sync_emails`. -/
def sync_endpoint (fo : List FetchOutcome)
    (enrich : EmailData → Except PyErr EnrichResult) (cf : Bool)
    (st : DBState) (dur : Nat) : DBState × Nat × Nat × List PyStr :=
  sync_emails enrich cf (sync_recent_emails fo) st dur

/-- Number of stored Message rows carrying a given identifier. -/
def emailRowCount (st : DBState) (eid : PyStr) : Nat :=
  (st.emails.filter (fun r => r.id == eid)).length

/-! ## Concrete fixtures used by witness and evaluation theorems -/

/-- A store holding a single already-generated draft for message `m1`. -/
def drafts_witness_state : DBState :=
  { emails := [], audits := [], nextRespId := 6,
    responses := [{ id := 5, email_id := "m1".data, variant_number := 1,
                    content := Json.str "hello".data, tone := "formal".data,
                    sent := false }] }

/-- A store holding one never-enriched message `m1` and no drafts. -/
def gen_witness_state : DBState :=
  { emails := [{ id := "m1".data, from_addr := "f".data, subject := "s".data,
                 body_text := "b".data, importance := none, category := none,
                 ai_summary := none }],
    responses := [], audits := [], nextRespId := 0 }

/-- A store already holding message `s1` (for the deduplication witness). -/
def sync_witness_state : DBState :=
  { emails := [{ id := "s1".data, from_addr := "f".data, subject := "s".data,
                 body_text := "b".data, importance := none, category := none,
                 ai_summary := none }],
    responses := [], audits := [], nextRespId := 0 }

/-- An enrichment oracle that always succeeds with fixed metadata. -/
def enrichOkOracle : EmailData → Except PyErr EnrichResult :=
  fun _ => .ok { importance := "medium".data, category := "professionnel".data,
                 ai_summary := none }

/-- A parsed provider message with the given identifier (fixture). -/
def mkEd (n : PyStr) : EmailData :=
  { id := n, from_addr := "f".data, subject := "s".data, body_text := "b".data }

/-! ## Helper lemmas -/

/-- A list starts with itself followed by anything. -/
theorem listStartsWith_self_append (p x : PyStr) : listStartsWith p (p ++ x) = true := by
  induction p with
  | nil => rfl
  | cons c cs ih => simp [List.cons_append, listStartsWith, ih]

/-- A list ends with its own suffix. -/
theorem listEndsWith_append (suf a : PyStr) : listEndsWith suf (a ++ suf) = true := by
  unfold listEndsWith
  rw [List.reverse_append]
  exact listStartsWith_self_append _ _

/-- A substring is found at the front. -/
theorem substrB_self_append (k b : PyStr) : substrB k (k ++ b) = true := by
  cases k with
  | nil => cases b <;> simp [substrB, listStartsWith]
  | cons c cs =>
    rw [List.cons_append, substrB]
    have : listStartsWith (c :: cs) (c :: (cs ++ b)) = true := by
      have := listStartsWith_self_append (c :: cs) b
      rwa [List.cons_append] at this
    rw [this]
    rfl

/-- Substring containment survives prepending. -/
theorem substrB_append_left (k a s : PyStr) (h : substrB k s = true) :
    substrB k (a ++ s) = true := by
  induction a with
  | nil => simpa using h
  | cons c a' ih => rw [List.cons_append, substrB, ih]; exact Bool.or_true _

/-- The terminal timeout error message names the configured timeout value. -/
theorem timeout_msg_names_timeout (tcfg : Nat) :
    substrB (natToStr tcfg) (timeout_error_msg tcfg) = true := by
  unfold timeout_error_msg
  rw [List.append_assoc]
  exact substrB_append_left _ _ _ (substrB_self_append _ _)

/-- Leading-whitespace removal keeps a non-space head. -/
theorem dropLeadWS_cons_of_not_space (c : Char) (l : PyStr) (h : isSpace c = false) :
    dropLeadWS (c :: l) = c :: l := by
  simp [dropLeadWS, List.dropWhile_cons, h]

/-- Leading-whitespace removal eats a space head. -/
theorem dropLeadWS_cons_of_space (c : Char) (l : PyStr) (h : isSpace c = true) :
    dropLeadWS (c :: l) = dropLeadWS l := by
  simp [dropLeadWS, List.dropWhile_cons, h]

/-- Trailing-whitespace removal keeps a non-space last element. -/
theorem dropTrailWS_append_of_not_space (a : PyStr) (c : Char) (h : isSpace c = false) :
    dropTrailWS (a ++ [c]) = a ++ [c] := by
  simp [dropTrailWS, List.reverse_append, List.dropWhile_cons, h]

/-- Trailing-whitespace removal eats a space last element. -/
theorem dropTrailWS_append_of_space (a : PyStr) (c : Char) (h : isSpace c = true) :
    dropTrailWS (a ++ [c]) = dropTrailWS a := by
  simp [dropTrailWS, List.reverse_append, List.dropWhile_cons, h]

/-- `pyStrip` fixes a string with non-space head and stripped tail. -/
theorem pyStrip_eq_self (c : Char) (t : PyStr) (h1 : isSpace c = false)
    (h2 : dropTrailWS (c :: t) = c :: t) : pyStrip (c :: t) = c :: t := by
  unfold pyStrip
  rw [dropLeadWS_cons_of_not_space c t h1, h2]

/-- Taking the length of the left part of an append returns it. -/
theorem take_length_append (a b : PyStr) : (a ++ b).take a.length = a := by
  induction a with
  | nil => rfl
  | cons x xs ih => simp [List.cons_append, List.take_succ_cons, ih]

/-- A string starting with `p ++ q` starts with `p`. -/
theorem listStartsWith_of_append (p q l : PyStr)
    (h : listStartsWith (p ++ q) l = true) : listStartsWith p l = true := by
  induction p generalizing l with
  | nil => rfl
  | cons a p' ih =>
    cases l with
    | nil => simp [listStartsWith] at h
    | cons b l' =>
      rw [List.cons_append] at h
      simp only [listStartsWith, Bool.and_eq_true] at h ⊢
      exact ⟨h.1, ih l' h.2⟩

/-- Dropping the wrapped payload of a `json`-tagged fence: the cleaning
preamble recovers the payload exactly (payload with non-space ends). -/
theorem cleanFences_wrapJson (c : Char) (t : PyStr) (h1 : isSpace c = false)
    (h2 : dropTrailWS (c :: t) = c :: t) :
    cleanFences (wrapJsonFence (c :: t)) = c :: t := by
  have hW2 : wrapJsonFence (c :: t) =
      (fenceJson ++ '\n' :: ((c :: t) ++ ['\n', btChar, btChar])) ++ [btChar] := by
    simp [wrapJsonFence, fenceJson, fence3, List.append_assoc]
  have eL : dropLeadWS (wrapJsonFence (c :: t)) = wrapJsonFence (c :: t) := by
    rw [show wrapJsonFence (c :: t) =
        btChar :: (([btChar, btChar, 'j', 's', 'o', 'n'] : PyStr) ++
          '\n' :: ((c :: t) ++ '\n' :: fence3)) from rfl]
    exact dropLeadWS_cons_of_not_space _ _ (by decide)
  have eT : dropTrailWS (wrapJsonFence (c :: t)) = wrapJsonFence (c :: t) := by
    rw [hW2]
    exact dropTrailWS_append_of_not_space _ _ (by decide)
  have e0 : pyStrip (wrapJsonFence (c :: t)) = wrapJsonFence (c :: t) := by
    unfold pyStrip
    rw [eL, eT]
  have hS1 : listStartsWith fenceJson (wrapJsonFence (c :: t)) = true := by
    unfold wrapJsonFence
    exact listStartsWith_self_append _ _
  have e1 : stripLeadFenceJson (wrapJsonFence (c :: t)) =
      '\n' :: ((c :: t) ++ '\n' :: fence3) := by
    simp only [stripLeadFenceJson, hS1, if_pos]
    rfl
  have hbq : (btChar == '\n') = false := by decide
  have e2 : stripLeadFence3 ('\n' :: ((c :: t) ++ '\n' :: fence3)) =
      '\n' :: ((c :: t) ++ '\n' :: fence3) := by
    simp [stripLeadFence3, fence3, listStartsWith, hbq]
  have hform : ('\n' :: ((c :: t) ++ '\n' :: fence3)) =
      ('\n' :: ((c :: t) ++ ['\n'])) ++ fence3 := by
    simp [fence3, List.append_assoc]
  have hE : listEndsWith fence3 ('\n' :: ((c :: t) ++ '\n' :: fence3)) = true := by
    rw [hform]
    exact listEndsWith_append _ _
  have e3 : stripTrailFence ('\n' :: ((c :: t) ++ '\n' :: fence3)) =
      '\n' :: ((c :: t) ++ ['\n']) := by
    simp only [stripTrailFence, hE, if_pos]
    rw [hform, List.length_append, show fence3.length = 3 from rfl,
      Nat.add_sub_cancel]
    exact take_length_append _ _
  have e4 : pyStrip ('\n' :: ((c :: t) ++ ['\n'])) = c :: t := by
    unfold pyStrip
    rw [dropLeadWS_cons_of_space _ _ (by decide), List.cons_append,
      dropLeadWS_cons_of_not_space _ _ h1, ← List.cons_append,
      dropTrailWS_append_of_space _ _ (by decide)]
    exact h2
  unfold cleanFences
  rw [e0, e1, e2, e3, e4]

/-- Same for the bare fence (no language tag). -/
theorem cleanFences_wrapBare (c : Char) (t : PyStr) (h1 : isSpace c = false)
    (h2 : dropTrailWS (c :: t) = c :: t) :
    cleanFences (wrapBareFence (c :: t)) = c :: t := by
  have hW2 : wrapBareFence (c :: t) =
      (fence3 ++ '\n' :: ((c :: t) ++ ['\n', btChar, btChar])) ++ [btChar] := by
    simp [wrapBareFence, fence3, List.append_assoc]
  have eL : dropLeadWS (wrapBareFence (c :: t)) = wrapBareFence (c :: t) := by
    rw [show wrapBareFence (c :: t) =
        btChar :: (([btChar, btChar] : PyStr) ++
          '\n' :: ((c :: t) ++ '\n' :: fence3)) from rfl]
    exact dropLeadWS_cons_of_not_space _ _ (by decide)
  have eT : dropTrailWS (wrapBareFence (c :: t)) = wrapBareFence (c :: t) := by
    rw [hW2]
    exact dropTrailWS_append_of_not_space _ _ (by decide)
  have e0 : pyStrip (wrapBareFence (c :: t)) = wrapBareFence (c :: t) := by
    unfold pyStrip
    rw [eL, eT]
  have hjq : (('j' : Char) == '\n') = false := by decide
  have hbb : (btChar == btChar) = true := by decide
  have hS1 : listStartsWith fenceJson (wrapBareFence (c :: t)) = false := by
    rw [show wrapBareFence (c :: t) =
        btChar :: btChar :: btChar :: '\n' :: ((c :: t) ++ '\n' :: fence3) from rfl]
    simp [fenceJson, listStartsWith, hbb, hjq]
  have e1 : stripLeadFenceJson (wrapBareFence (c :: t)) = wrapBareFence (c :: t) := by
    simp [stripLeadFenceJson, hS1]
  have hS2 : listStartsWith fence3 (wrapBareFence (c :: t)) = true := by
    unfold wrapBareFence
    exact listStartsWith_self_append _ _
  have e2 : stripLeadFence3 (wrapBareFence (c :: t)) =
      '\n' :: ((c :: t) ++ '\n' :: fence3) := by
    simp only [stripLeadFence3, hS2, if_pos]
    rfl
  have hform : ('\n' :: ((c :: t) ++ '\n' :: fence3)) =
      ('\n' :: ((c :: t) ++ ['\n'])) ++ fence3 := by
    simp [fence3, List.append_assoc]
  have hE : listEndsWith fence3 ('\n' :: ((c :: t) ++ '\n' :: fence3)) = true := by
    rw [hform]
    exact listEndsWith_append _ _
  have e3 : stripTrailFence ('\n' :: ((c :: t) ++ '\n' :: fence3)) =
      '\n' :: ((c :: t) ++ ['\n']) := by
    simp only [stripTrailFence, hE, if_pos]
    rw [hform, List.length_append, show fence3.length = 3 from rfl,
      Nat.add_sub_cancel]
    exact take_length_append _ _
  have e4 : pyStrip ('\n' :: ((c :: t) ++ ['\n'])) = c :: t := by
    unfold pyStrip
    rw [dropLeadWS_cons_of_space _ _ (by decide), List.cons_append,
      dropLeadWS_cons_of_not_space _ _ h1, ← List.cons_append,
      dropTrailWS_append_of_space _ _ (by decide)]
    exact h2
  unfold cleanFences
  rw [e0, e1, e2, e3, e4]

/-- The cleaning preamble fixes an already-clean string (stripped, and
carrying no fence marker at either end). -/
theorem cleanFences_id (c : Char) (t : PyStr) (h1 : isSpace c = false)
    (h2 : dropTrailWS (c :: t) = c :: t)
    (h3 : listStartsWith fence3 (c :: t) = false)
    (h4 : listEndsWith fence3 (c :: t) = false) :
    cleanFences (c :: t) = c :: t := by
  have hfj : listStartsWith fenceJson (c :: t) = false := by
    rcases hb : listStartsWith fenceJson (c :: t)
    · rfl
    · exfalso
      have := listStartsWith_of_append fence3 (['j', 's', 'o', 'n']) (c :: t)
        (by rw [show fence3 ++ (['j', 's', 'o', 'n'] : PyStr) = fenceJson from rfl]
            exact hb)
      rw [h3] at this
      exact Bool.false_ne_true this
  have e0 := pyStrip_eq_self c t h1 h2
  unfold cleanFences
  rw [e0]
  rw [show stripLeadFenceJson (c :: t) = c :: t by simp [stripLeadFenceJson, hfj]]
  rw [show stripLeadFence3 (c :: t) = c :: t by simp [stripLeadFence3, h3]]
  rw [show stripTrailFence (c :: t) = c :: t by simp [stripTrailFence, h4]]
  exact e0

/-! ## C1 : importance classification -/

/-- C1: `classify_importance` always returns a member of the set high / medium / low;
a gateway error of any kind, or a response whose normalisation
(strip, lowercase, drop periods and commas) is out of vocabulary, yields
exactly `medium`. -/
theorem classify_importance_contract (o : Except LLMError PyStr) :
    classify_importance o ∈ IMPORTANCE_LEVELS ∧
    (∀ e, o = .error e → classify_importance o = "medium".data) ∧
    (∀ r, o = .ok r → normalizeLabel r ∉ IMPORTANCE_LEVELS →
      classify_importance o = "medium".data) := by
  refine ⟨?_, ?_, ?_⟩
  · cases o with
    | error e => simp only [classify_importance]; decide
    | ok r =>
      by_cases h : normalizeLabel r ∈ IMPORTANCE_LEVELS
      · simp [classify_importance, h]
      · simp only [classify_importance, h, not_false_eq_true, if_pos]; decide
  · rintro e rfl; rfl
  · rintro r rfl h; simp [classify_importance, h]

/-- Witness for C1: an out-of-vocabulary response maps to `medium`, which is
in the vocabulary. -/
theorem classify_importance_witness :
    classify_importance (.ok "banana".data) = "medium".data ∧
    classify_importance (.ok "banana".data) ∈ IMPORTANCE_LEVELS :=
  ⟨(classify_importance_contract _).2.2 _ rfl (by decide),
   (classify_importance_contract _).1⟩

/-! ## C5 : category classification -/

/-- Counterexample for C5: the default category in the code is the French string
`professionnel`, not `professional` — both on gateway failure and on an
out-of-vocabulary response — and the two strings differ. -/
theorem category_default_counterexample :
    classify_category (.error (.serviceE [])) = "professionnel".data ∧
    classify_category (.ok "banana".data) = "professionnel".data ∧
    ¬ (("professionnel".data : PyStr) = "professional".data) := by decide

/-- C5 (amended): `classify_category` always returns a member of the fixed
category vocabulary of `config.py`; any gateway error or out-of-vocabulary
response maps to the default `professionnel` (French spelling, as configured),
not `professional`. -/
theorem classify_category_contract (o : Except LLMError PyStr) :
    classify_category o ∈ CATEGORIES ∧
    (∀ e, o = .error e → classify_category o = "professionnel".data) ∧
    (∀ r, o = .ok r → normalizeLabel r ∉ CATEGORIES →
      classify_category o = "professionnel".data) := by
  refine ⟨?_, ?_, ?_⟩
  · cases o with
    | error e => simp only [classify_category]; decide
    | ok r =>
      by_cases h : normalizeLabel r ∈ CATEGORIES
      · simp [classify_category, h]
      · simp only [classify_category, h, not_false_eq_true, if_pos]; decide
  · rintro e rfl; rfl
  · rintro r rfl h; simp [classify_category, h]

/-- Witness for the amended C5 theorem. -/
theorem classify_category_witness :
    classify_category (.ok "banana".data) = "professionnel".data ∧
    classify_category (.ok "banana".data) ∈ CATEGORIES :=
  ⟨(classify_category_contract _).2.2 _ rfl (by decide),
   (classify_category_contract _).1⟩

/-! ## C4 : gateway retry contract -/

/-- Counterexample for C4: with every attempt timing out, `call_llm` sleeps
`[2, 4]` between its 3 attempts — there is no third sleep of 8 — and in the
all-connection-failure case the terminal error message does not name the
configured timeout value. -/
theorem retry_backoff_counterexample :
    (call_llm (fun _ => AttemptOutcome.timeout) 1).2.2 = [2, 4] ∧
    (call_llm (fun _ => AttemptOutcome.timeout) 1).2.1 = 3 ∧
    ¬ ((call_llm (fun _ => AttemptOutcome.timeout) 1).2.2 = [2, 4, 8]) ∧
    (call_llm (fun _ => AttemptOutcome.connectError) 1).1 =
      .error (.connectE connect_error_msg) ∧
    substrB (natToStr 1) connect_error_msg = false :=
  ⟨rfl, rfl, by decide, rfl, by decide⟩

/-- C4 (amended): when every attempt fails with a timeout, `call_llm` makes
exactly 3 attempts, sleeping 2 then 4 units between them (`2 ^ (attempt+1)`
after failed attempts 0 and 1; the third failure raises without sleeping),
and raises a terminal timeout error whose message names the configured
timeout value.  When every attempt fails with a connection failure it
likewise makes 3 attempts with sleeps `[2, 4]` and raises a terminal
connection error (whose fixed message does not mention the timeout). -/
theorem call_llm_retry_contract (o : Nat → AttemptOutcome) (tcfg : Nat) :
    ((∀ i, i < 3 → o i = .timeout) →
      call_llm o tcfg = (.error (.timeoutE (timeout_error_msg tcfg)), 3, [2, 4]) ∧
      substrB (natToStr tcfg) (timeout_error_msg tcfg) = true) ∧
    ((∀ i, i < 3 → o i = .connectError) →
      call_llm o tcfg = (.error (.connectE connect_error_msg), 3, [2, 4])) := by
  constructor
  · intro h
    have h0 := h 0 (by omega)
    have h1 := h 1 (by omega)
    have h2 := h 2 (by omega)
    exact ⟨by simp [call_llm, attemptStep, h0, h1, h2],
           timeout_msg_names_timeout tcfg⟩
  · intro h
    have h0 := h 0 (by omega)
    have h1 := h 1 (by omega)
    have h2 := h 2 (by omega)
    simp [call_llm, attemptStep, h0, h1, h2]

/-- Witness for the amended C4 theorem at the always-timeout stub with the
default configured timeout of 60. -/
theorem call_llm_retry_witness :
    call_llm (fun _ => AttemptOutcome.timeout) 60 =
      (.error (.timeoutE (timeout_error_msg 60)), 3, [2, 4]) ∧
    substrB (natToStr 60) (timeout_error_msg 60) = true :=
  (call_llm_retry_contract (fun _ => AttemptOutcome.timeout) 60).1
    (fun _ _ => rfl)

/-! ## C7 : truncation helper -/

/-- Counterexample for C7: a text of 8 characters against a budget of 1 token
is over budget (estimate 2 > 1), yet the result of `truncate_for_context` is
longer than the input, and its estimated token count (4) is larger than the
estimate of the original (2) — the estimate does not strictly decrease. -/
theorem truncate_estimate_counterexample :
    1 < estimate_tokens (List.replicate 8 'a') ∧
    ¬ ((truncate_for_context (List.replicate 8 'a') 1).length <
        (List.replicate 8 'a').length) ∧
    ¬ (estimate_tokens (truncate_for_context (List.replicate 8 'a') 1) <
        estimate_tokens (List.replicate 8 'a')) := by decide

/-- C7 (amended): a text whose estimate (length // 4) is within the budget is
returned unchanged; a text over budget becomes its first `4·budget`
characters plus the marker, hence ends with the marker and has estimated
token count `budget + 3` — which is strictly below the original estimate
exactly when the original estimate is at least `budget + 4` (texts barely
over budget yield a result whose estimate does not decrease). -/
theorem truncate_for_context_contract (t : PyStr) (m : Nat) :
    (estimate_tokens t ≤ m → truncate_for_context t m = t) ∧
    (m < estimate_tokens t →
      truncate_for_context t m = t.take (m * 4) ++ truncMarker ∧
      listEndsWith truncMarker (truncate_for_context t m) = true ∧
      estimate_tokens (truncate_for_context t m) = m + 3 ∧
      (estimate_tokens (truncate_for_context t m) < estimate_tokens t ↔
        m + 4 ≤ estimate_tokens t)) := by
  constructor
  · intro h
    simp [truncate_for_context, h]
  · intro h
    have hnle : ¬ estimate_tokens t ≤ m := by omega
    have htr : truncate_for_context t m = t.take (m * 4) ++ truncMarker := by
      simp [truncate_for_context, hnle]
    have hlen4 : m * 4 ≤ t.length := by
      unfold estimate_tokens at h
      omega
    have hmark : truncMarker.length = 15 := by decide
    have hlen : (t.take (m * 4) ++ truncMarker).length = m * 4 + 15 := by
      rw [List.length_append, List.length_take, hmark]
      omega
    have hest : estimate_tokens (truncate_for_context t m) = m + 3 := by
      rw [htr]
      unfold estimate_tokens
      rw [hlen]
      omega
    refine ⟨htr, ?_, hest, ?_⟩
    · rw [htr]; exact listEndsWith_append _ _
    · rw [hest]
      unfold estimate_tokens
      unfold estimate_tokens at h
      omega

/-- Witness for the amended C7 theorem: a 20-character text against a budget of
1 token. -/
theorem truncate_for_context_witness :
    1 < estimate_tokens (List.replicate 20 'a') ∧
    (truncate_for_context (List.replicate 20 'a') 1 =
       (List.replicate 20 'a').take (1 * 4) ++ truncMarker ∧
     listEndsWith truncMarker (truncate_for_context (List.replicate 20 'a') 1) = true ∧
     estimate_tokens (truncate_for_context (List.replicate 20 'a') 1) = 1 + 3 ∧
     (estimate_tokens (truncate_for_context (List.replicate 20 'a') 1) <
        estimate_tokens (List.replicate 20 'a') ↔
      1 + 4 ≤ estimate_tokens (List.replicate 20 'a'))) :=
  ⟨by decide, (truncate_for_context_contract _ 1).2 (by decide)⟩

/-! ## C9 : improve is best-effort -/

/-- C9: for every draft, `improve_response` returns the original draft
unchanged on any gateway error (and the stripped model text on success),
whereas `generate_responses` propagates the gateway error to its caller —
improvement is the operation that degrades to its unmodified input. -/
theorem improve_response_contract (draft : PyStr) :
    (∀ e, improve_response draft (.error e) = draft) ∧
    (∀ r, improve_response draft (.ok r) = pyStrip r) ∧
    (∀ e, generate_responses (.error e) = .error (.llmE e)) :=
  ⟨fun _ => rfl, fun _ => rfl, fun _ => rfl⟩

/-! ## C6 : JSON extraction recovery -/

/-- Counterexample for C6: on a response with prose around one well-formed
brace block, the direct parse fails and the brace substring parses — yet
`call_llm_json` (one of the two extractors the claim covers) raises its
invalid-JSON error instead of extracting the block; only
`_parse_response_json` performs the first-brace/last-brace fallback. -/
theorem brace_fallback_counterexample :
    jsonLoads (cleanFences
      "Here is the result: \x7b\"variant1\": \"Yes.\"\x7d Hope this helps!".data) = none ∧
    parse_response_json_parsed
      "Here is the result: \x7b\"variant1\": \"Yes.\"\x7d Hope this helps!".data =
      .ok (Json.obj [("variant1".data, Json.str "Yes.".data)]) ∧
    call_llm_json_extract
      "Here is the result: \x7b\"variant1\": \"Yes.\"\x7d Hope this helps!".data =
      .error .invalidJson :=
  ⟨rfl, rfl, rfl⟩

/-- C6 (amended): stripping a leading/trailing fenced-code marker (with or
without the `json` tag) yields the same extraction result as the unfenced
input, for both extractors; in `_parse_response_json`, when direct parsing
fails and the substring between the first `\x7b` and the last `\x7d` parses,
that block is returned, and only when both parses fail is the distinct
invalid-structured-output error raised — whereas `call_llm_json` raises that
error as soon as the direct parse fails, having no brace fallback. -/
theorem json_extraction_contract :
    (∀ (c : Char) (t : PyStr), isSpace c = false → dropTrailWS (c :: t) = c :: t →
      listStartsWith fence3 (c :: t) = false → listEndsWith fence3 (c :: t) = false →
      cleanFences (wrapJsonFence (c :: t)) = c :: t ∧
      cleanFences (wrapBareFence (c :: t)) = c :: t ∧
      cleanFences (c :: t) = c :: t ∧
      call_llm_json_extract (wrapJsonFence (c :: t)) = call_llm_json_extract (c :: t) ∧
      call_llm_json_extract (wrapBareFence (c :: t)) = call_llm_json_extract (c :: t) ∧
      parse_response_json_parsed (wrapJsonFence (c :: t)) =
        parse_response_json_parsed (c :: t) ∧
      parse_response_json_parsed (wrapBareFence (c :: t)) =
        parse_response_json_parsed (c :: t)) ∧
    (∀ (resp : PyStr) (v : Json), jsonLoads (cleanFences resp) = none →
      (0 ≤ pyFindChar lbChar (cleanFences resp) ∧
        pyFindChar lbChar (cleanFences resp) < pyRfindChar rbChar (cleanFences resp) + 1) →
      jsonLoads (pySliceNat (cleanFences resp)
        (pyFindChar lbChar (cleanFences resp)).toNat
        (pyRfindChar rbChar (cleanFences resp) + 1).toNat) = some v →
      parse_response_json_parsed resp = .ok v ∧
      call_llm_json_extract resp = .error .invalidJson) ∧
    (∀ resp : PyStr, jsonLoads (cleanFences resp) = none →
      ((0 ≤ pyFindChar lbChar (cleanFences resp) ∧
        pyFindChar lbChar (cleanFences resp) < pyRfindChar rbChar (cleanFences resp) + 1) →
        jsonLoads (pySliceNat (cleanFences resp)
          (pyFindChar lbChar (cleanFences resp)).toNat
          (pyRfindChar rbChar (cleanFences resp) + 1).toNat) = none) →
      parse_response_json_parsed resp = .error .invalidJson ∧
      call_llm_json_extract resp = .error .invalidJson) := by
  refine ⟨?_, ?_, ?_⟩
  · intro c t h1 h2 h3 h4
    have hwj := cleanFences_wrapJson c t h1 h2
    have hwb := cleanFences_wrapBare c t h1 h2
    have hid := cleanFences_id c t h1 h2 h3 h4
    refine ⟨hwj, hwb, hid, ?_, ?_, ?_, ?_⟩
    · unfold call_llm_json_extract
      rw [hwj, hid]
    · unfold call_llm_json_extract
      rw [hwb, hid]
    · unfold parse_response_json_parsed
      rw [hwj, hid]
    · unfold parse_response_json_parsed
      rw [hwb, hid]
  · intro resp v hn hbr hs
    constructor
    · unfold parse_response_json_parsed
      rw [hn]
      unfold braceFallback
      rw [if_pos hbr, hs]
    · unfold call_llm_json_extract
      rw [hn]
  · intro resp hn hsl
    constructor
    · unfold parse_response_json_parsed
      rw [hn]
      unfold braceFallback
      by_cases hb : (0 ≤ pyFindChar lbChar (cleanFences resp) ∧
          pyFindChar lbChar (cleanFences resp) <
            pyRfindChar rbChar (cleanFences resp) + 1)
      · rw [if_pos hb, hsl hb]
      · rw [if_neg hb]
    · unfold call_llm_json_extract
      rw [hn]

/-- Witness for the amended C6 theorem: a fenced object round-trips, a
prose-wrapped block is recovered by `_parse_response_json`, and a brace-free
response yields the invalid-JSON error. -/
theorem json_extraction_witness :
    cleanFences (wrapJsonFence (lbChar :: "\"a\": 1\x7d".data)) =
      lbChar :: "\"a\": 1\x7d".data ∧
    parse_response_json_parsed "Result: \x7b\"a\": 1\x7d ok".data =
      .ok (Json.obj [("a".data, Json.num 1)]) ∧
    parse_response_json_parsed "no braces in this response".data =
      .error .invalidJson :=
  ⟨(json_extraction_contract.1 lbChar ("\"a\": 1\x7d".data) (by decide)
      (by decide) (by decide) (by decide)).1,
   (json_extraction_contract.2.1 ("Result: \x7b\"a\": 1\x7d ok".data)
      (Json.obj [("a".data, Json.num 1)]) rfl (by decide) rfl).1,
   (json_extraction_contract.2.2 ("no braces in this response".data) rfl
      (fun h => absurd h (by decide))).1⟩

/-! ## Helper lemmas for the draft manager (C2, C10) -/


/-- A successful fill yields one entry per probed key. -/
theorem fillGo_length (ks : List PyStr) (parsed : Json)
    (kvs : List (PyStr × Json)) (h : fillGo ks parsed = some kvs) :
    kvs.length = ks.length := by
  induction ks generalizing kvs with
  | nil =>
    simp only [fillGo, Option.some.injEq] at h
    rw [← h]
    rfl
  | cons k ks ih =>
    simp only [fillGo] at h
    cases hc : jsonContainsKey parsed k with
    | none => rw [hc] at h; simp at h
    | some b =>
      rw [hc] at h
      cases b with
      | true =>
        cases hg : jsonGetKey parsed k with
        | none => rw [hg] at h; simp at h
        | some v =>
          rw [hg] at h
          rcases Option.map_eq_some'.mp h with ⟨a, ha, rfl⟩
          simp [ih a ha]
      | false =>
        rcases Option.map_eq_some'.mp h with ⟨a, ha, rfl⟩
        simp [ih a ha]

/-- A present key has a dict value. -/
theorem dictLookup_isSome_of_any (kvs : List (PyStr × Json)) (k : PyStr)
    (h : kvs.any (fun p => p.1 == k) = true) : ∃ v, dictLookup kvs k = some v := by
  unfold dictLookup
  have hs : (kvs.reverse.find? (fun p => p.1 == k)).isSome := by
    rw [List.find?_isSome]
    rcases List.any_eq_true.mp h with ⟨x, hx, hpx⟩
    exact ⟨x, List.mem_reverse.mpr hx, hpx⟩
  rcases Option.isSome_iff_exists.mp hs with ⟨p, hp⟩
  exact ⟨p.2, by rw [hp]; rfl⟩

/-- An absent key has no dict value. -/
theorem dictLookup_eq_none_of_any_false (kvs : List (PyStr × Json)) (k : PyStr)
    (h : kvs.any (fun p => p.1 == k) = false) : dictLookup kvs k = none := by
  unfold dictLookup
  have hn : kvs.reverse.find? (fun p => p.1 == k) = none := by
    rw [List.find?_eq_none]
    intro x hx
    have := List.any_eq_false.mp h x (List.mem_reverse.mp hx)
    simpa using this
  rw [hn]
  rfl

/-- On a decoded JSON object, the fill loop succeeds and produces exactly the
probed keys, each mapped to the stored value or the placeholder. -/
theorem fillGo_obj (ks : List PyStr) (kvs : List (PyStr × Json)) :
    fillGo ks (Json.obj kvs) = some (ks.map (fun k => (k, fillVal kvs k))) := by
  induction ks with
  | nil => rfl
  | cons k ks ih =>
    simp only [fillGo, jsonContainsKey]
    cases hany : kvs.any (fun p => p.1 == k) with
    | true =>
      rcases dictLookup_isSome_of_any kvs k hany with ⟨v, hv⟩
      simp [jsonGetKey, hv, ih, fillVal]
    | false =>
      have hn := dictLookup_eq_none_of_any_false kvs k hany
      simp [ih, fillVal, hn]

/-- A successful generation always carries exactly 3 variant entries. -/
theorem generate_responses_length (gen : Except LLMError PyStr)
    (kvs : List (PyStr × Json)) (h : generate_responses gen = .ok kvs) :
    kvs.length = 3 := by
  cases gen with
  | error e => simp [generate_responses] at h
  | ok text =>
    simp only [generate_responses] at h
    cases hp : parse_response_json text with
    | error e => rw [hp] at h; cases e <;> simp at h
    | ok kvs' =>
      rw [hp] at h
      simp only [] at h
      simp only [Except.ok.injEq] at h
      subst h
      simp only [parse_response_json] at hp
      cases hpp : parse_response_json_parsed text with
      | error e => rw [hpp] at hp; simp only [] at hp; simp at hp
      | ok parsed =>
        rw [hpp] at hp
        simp only [] at hp
        cases hf : fillGo variantKeys parsed with
        | none => rw [hf] at hp; simp only [] at hp; simp at hp
        | some kvs2 =>
          rw [hf] at hp
          simp only [] at hp
          simp only [Except.ok.injEq] at hp
          subst hp
          exact fillGo_length variantKeys parsed _ hf

/-! ## C2 : getOrGenerateDrafts idempotence (code bug) -/

/-- C2 (code bug): `db.get_responses` and `db.get_email` return plain dicts
while `get_or_generate_responses` reads their results attribute-style, so
the stored-draft path raises `AttributeError` at `r.id` instead of
returning the stored drafts, and the no-draft path raises `AttributeError`
at `email_data.from_addr` before any generation call.  On every input the
call leaves the store untouched, issues zero generation calls, and returns
one of the three errors — never a draft set; the concrete evaluations
exhibit both failing paths. -/
theorem get_or_generate_attribute_bug :
    (∀ (st : DBState) (eid : PyStr) (gen : Except LLMError PyStr),
      (get_or_generate_responses st eid gen).2.1 = st ∧
      (get_or_generate_responses st eid gen).2.2 = 0 ∧
      ((get_or_generate_responses st eid gen).1 = .error .notFound ∨
       (get_or_generate_responses st eid gen).1 = .error (.attrE "id".data) ∨
       (get_or_generate_responses st eid gen).1 =
         .error (.attrE "from_addr".data))) ∧
    get_or_generate_responses drafts_witness_state "m1".data (.ok "x".data) =
      (.error (.attrE "id".data), drafts_witness_state, 0) ∧
    get_or_generate_responses gen_witness_state "m1".data (.ok "x".data) =
      (.error (.attrE "from_addr".data), gen_witness_state, 0) := by
  refine ⟨?_, rfl, rfl⟩
  intro st eid gen
  cases hgr : get_responses st eid with
  | nil =>
    cases hge : get_email st eid with
    | none =>
      have hc : get_or_generate_responses st eid gen =
          (.error .notFound, st, 0) := by
        simp [get_or_generate_responses, hgr, hge]
      rw [hc]
      exact ⟨rfl, rfl, Or.inl rfl⟩
    | some em =>
      have hc : get_or_generate_responses st eid gen =
          (.error (.attrE "from_addr".data), st, 0) := by
        simp [get_or_generate_responses, hgr, hge]
      rw [hc]
      exact ⟨rfl, rfl, Or.inr (Or.inr rfl)⟩
  | cons a l =>
    have hc : get_or_generate_responses st eid gen =
        (.error (.attrE "id".data), st, 0) := by
      simp [get_or_generate_responses, hgr, rowsToDicts]
    rw [hc]
    exact ⟨rfl, rfl, Or.inr (Or.inl rfl)⟩

/-! ## C10 : draft-batch shape invariant (code bug) -/

/-- C10 (code bug): the fill half of the claim is true of the code — for
every decoded JSON object the filled variant map contains exactly the keys
variant1, variant2, variant3 in order, extra keys discarded and missing
keys replaced by the placeholder — but the persistence half is not:
`get_or_generate_responses` raises `AttributeError` at
`email_data.from_addr` before any generation call, and the save loop
itself, run on a filled variant map, persists exactly one row and then
raises `AttributeError` at `response.id` — it never persists 3 drafts. -/
theorem draft_persistence_attribute_bug :
    (∀ pkvs : List (PyStr × Json),
      fillGo variantKeys (Json.obj pkvs) =
        some [("variant1".data, fillVal pkvs "variant1".data),
              ("variant2".data, fillVal pkvs "variant2".data),
              ("variant3".data, fillVal pkvs "variant3".data)]) ∧
    get_or_generate_responses gen_witness_state "m1".data
      (.ok "\x7b\"variant1\": \"A\"\x7d".data) =
      (.error (.attrE "from_addr".data), gen_witness_state, 0) ∧
    saveLoop gen_witness_state "m1".data
      [("variant1".data, Json.str "A".data),
       ("variant2".data, Json.str placeholderStr),
       ("variant3".data, Json.str placeholderStr)] 1 =
      (.error (.attrE "id".data),
       { emails := gen_witness_state.emails,
         responses := [{ id := 0, email_id := "m1".data, variant_number := 1,
                         content := Json.str "A".data, tone := "formal".data,
                         sent := false }],
         audits := [], nextRespId := 1 }) := by
  refine ⟨?_, rfl, ?_⟩
  · intro pkvs
    rw [fillGo_obj]
    rfl
  · rfl


/-! ## Helper lemmas for the sync loop (C3, C8) -/

/-- An identifier the store does not know has zero rows. -/
theorem get_email_none_count (st : DBState) (eid : PyStr)
    (h : get_email st eid = none) : emailRowCount st eid = 0 := by
  unfold get_email at h
  unfold emailRowCount
  rw [List.find?_eq_none] at h
  have hf : st.emails.filter (fun r => r.id == eid) = [] := by
    rw [List.filter_eq_nil_iff]
    intro a ha
    simpa using h a ha
  rw [hf]
  rfl

/-- Creating a row changes exactly the count of the created identifier. -/
theorem emailRowCount_create (st : DBState) (rec : EmailRec) (eid : PyStr) :
    emailRowCount (create_email st rec) eid =
      emailRowCount st eid + (if rec.id == eid then 1 else 0) := by
  unfold emailRowCount create_email
  rw [List.filter_append]
  by_cases h : (rec.id == eid) = true <;>
    simp [List.filter_cons, h]

/-- One loop iteration never touches the audit table. -/
theorem syncStep_audits (enrich : EmailData → Except PyErr EnrichResult)
    (cf : Bool) (acc : DBState × Nat × List PyStr × Nat) (e : EmailData) :
    (syncStep enrich cf acc e).1.audits = acc.1.audits := by
  simp only [syncStep]
  cases hge : get_email acc.1 e.id with
  | some r => rfl
  | none =>
    by_cases hcf : cf = true
    · simp only [hcf, if_true]
      cases he : enrich e with
      | error err => cases err with | exn m => rfl
      | ok cls => simp [create_email]
    · simp only [if_neg hcf]
      simp [create_email]

/-- The whole loop never touches the audit table. -/
theorem syncLoop_audits (enrich : EmailData → Except PyErr EnrichResult)
    (cf : Bool) (L : List EmailData) (st : DBState) :
    (syncLoop enrich cf L st).1.audits = st.audits := by
  have aux : ∀ (L' : List EmailData) (acc : DBState × Nat × List PyStr × Nat),
      (L'.foldl (syncStep enrich cf) acc).1.audits = acc.1.audits := by
    intro L'
    induction L' with
    | nil => intro acc; rfl
    | cons e L'' ih =>
      intro acc
      rw [List.foldl_cons, ih]
      exact syncStep_audits enrich cf acc e
  exact aux L (st, 0, [], 0)

/-! ## C3 : sync deduplication -/

/-- C3: a fetched message whose identifier already exists in the store is
skipped entirely — store state, processed count, error list and the number
of enrichment calls are all unchanged; at most one row per identifier is
ever kept; and a sync whose messages all carry an already-stored identifier
leaves the store untouched with processed count zero. -/
theorem sync_dedup_contract :
    (∀ (enrich : EmailData → Except PyErr EnrichResult) (cf : Bool)
      (acc : DBState × Nat × List PyStr × Nat) (e : EmailData) (r : EmailRec),
      get_email acc.1 e.id = some r →
      syncStep enrich cf acc e = acc) ∧
    (∀ (enrich : EmailData → Except PyErr EnrichResult) (cf : Bool)
      (L : List EmailData) (acc : DBState × Nat × List PyStr × Nat) (eid : PyStr),
      emailRowCount acc.1 eid ≤ 1 →
      emailRowCount ((L.foldl (syncStep enrich cf) acc).1) eid ≤ 1) ∧
    (∀ (enrich : EmailData → Except PyErr EnrichResult) (cf : Bool)
      (L : List EmailData) (st : DBState) (eid : PyStr) (r : EmailRec),
      (∀ e ∈ L, e.id = eid) → get_email st eid = some r →
      syncLoop enrich cf L st = (st, 0, [], 0)) := by
  refine ⟨?_, ?_, ?_⟩
  · intro enrich cf acc e r h
    simp only [syncStep, h]
  · intro enrich cf L
    induction L with
    | nil => intro acc eid h; simpa using h
    | cons e L ih =>
      intro acc eid h
      rw [List.foldl_cons]
      apply ih
      cases hge : get_email acc.1 e.id with
      | some r => simp only [syncStep, hge]; exact h
      | none =>
        have hcreate : ∀ rec : EmailRec, rec.id = e.id →
            emailRowCount (create_email acc.1 rec) eid ≤ 1 := by
          intro rec hrid
          rw [emailRowCount_create]
          by_cases hid : (rec.id == eid) = true
          · have heq : e.id = eid := by rw [← hrid]; simpa using hid
            have h0 : emailRowCount acc.1 eid = 0 := by
              rw [← heq]
              exact get_email_none_count acc.1 e.id hge
            rw [h0]
            simp [hid]
          · rw [if_neg hid]
            simpa using h
        simp only [syncStep, hge]
        by_cases hcf : cf = true
        · simp only [hcf, if_true]
          cases he : enrich e with
          | error err => cases err with | exn m => exact h
          | ok cls => exact hcreate _ rfl
        · simp only [if_neg hcf]
          exact hcreate _ rfl
  · intro enrich cf L st eid r hall hge
    have aux : ∀ (L' : List EmailData), (∀ e ∈ L', e.id = eid) →
        ∀ (p k : Nat) (errs : List PyStr),
        L'.foldl (syncStep enrich cf) (st, p, errs, k) = (st, p, errs, k) := by
      intro L'
      induction L' with
      | nil => intro _ p k errs; rfl
      | cons e L'' ih =>
        intro h' p k errs
        rw [List.foldl_cons]
        have hee : get_email st e.id = some r := by
          rw [h' e (List.mem_cons_self e L'')]
          exact hge
        have hstep : syncStep enrich cf (st, p, errs, k) e = (st, p, errs, k) := by
          simp only [syncStep, hee]
        rw [hstep]
        exact ih (fun x hx => h' x (List.mem_cons_of_mem e hx)) p k errs
    exact aux L hall 0 0 []

/-- Witness for C3: with `s1` already stored, its re-fetch is skipped and a
sync consisting only of `s1` re-fetches processes nothing. -/
theorem sync_dedup_witness :
    syncStep enrichOkOracle true (sync_witness_state, 0, [], 0)
      (mkEd "s1".data) = (sync_witness_state, 0, [], 0) ∧
    syncLoop enrichOkOracle true [mkEd "s1".data] sync_witness_state =
      (sync_witness_state, 0, [], 0) ∧
    emailRowCount ((([mkEd "s1".data] : List EmailData).foldl
      (syncStep enrichOkOracle true) (sync_witness_state, 0, [], 0)).1)
      "s1".data ≤ 1 :=
  ⟨sync_dedup_contract.1 enrichOkOracle true (sync_witness_state, 0, [], 0)
      (mkEd "s1".data)
      { id := "s1".data, from_addr := "f".data, subject := "s".data,
        body_text := "b".data, importance := none, category := none,
        ai_summary := none }
      (by simp [get_email, sync_witness_state, mkEd]),
   sync_dedup_contract.2.2 enrichOkOracle true [mkEd "s1".data]
      sync_witness_state "s1".data
      { id := "s1".data, from_addr := "f".data, subject := "s".data,
        body_text := "b".data, importance := none, category := none,
        ai_summary := none }
      (by intro e he; rw [List.mem_singleton] at he; subst he; rfl)
      (by simp [get_email, sync_witness_state]),
   sync_dedup_contract.2.1 enrichOkOracle true [mkEd "s1".data]
      (sync_witness_state, 0, [], 0) "s1".data (by decide)⟩

/-! ## C8 : sync audit accounting -/

/-- Counterexample for C8: a sync of 5 provider messages where the
fetch/parse of message 3 fails records an audit row with `fetched = 4` and
an empty (NULL) error list — the failed message is silently dropped inside
the provider loop — not `fetched = 5` with one error entry. -/
theorem sync_audit_counterexample :
    (sync_endpoint
      [FetchOutcome.fetched (mkEd "c1".data),
       FetchOutcome.fetched (mkEd "c2".data),
       FetchOutcome.parseFail,
       FetchOutcome.fetched (mkEd "c4".data),
       FetchOutcome.fetched (mkEd "c5".data)]
      enrichOkOracle true
      { emails := [], responses := [], audits := [], nextRespId := 0 }
      0).1.audits =
      [{ fetched := 4, processed := 4, errors := none, duration := 0 }] ∧
    ({ fetched := 4, processed := 4, errors := none,
       duration := 0 } : SyncAudit).fetched ≠ 5 ∧
    ({ fetched := 4, processed := 4, errors := none,
       duration := 0 } : SyncAudit).errors = none := by
  refine ⟨by decide, by decide, rfl⟩

/-- C8 (amended): every sync invocation whose provider fetch returns writes
exactly one audit row, recording the number of successfully
fetched-and-parsed messages, the loop's processed count, the loop's error
strings (NULL when empty) and the duration; a per-message fetch/parse
failure inside the provider loop drops the message silently (so 5 provider
messages with message 3 failing to parse audit as `fetched = 4, processed =
4`, no errors), while a per-message failure in the enrichment/persist loop
audits as `fetched = 5, processed = 4` with exactly one error entry. -/
theorem sync_audit_contract :
    (∀ (fo : List FetchOutcome) (enrich : EmailData → Except PyErr EnrichResult)
      (cf : Bool) (st : DBState) (dur : Nat),
      (sync_endpoint fo enrich cf st dur).1.audits =
        st.audits ++
          [{ fetched := (sync_recent_emails fo).length,
             processed := (syncLoop enrich cf (sync_recent_emails fo) st).2.1,
             errors :=
               if (syncLoop enrich cf (sync_recent_emails fo) st).2.2.1.isEmpty
               then none
               else some ((syncLoop enrich cf (sync_recent_emails fo) st).2.2.1),
             duration := dur }]) ∧
    (sync_endpoint
      [FetchOutcome.fetched (mkEd "a1".data),
       FetchOutcome.fetched (mkEd "a2".data),
       FetchOutcome.parseFail,
       FetchOutcome.fetched (mkEd "a4".data),
       FetchOutcome.fetched (mkEd "a5".data)]
      enrichOkOracle true
      { emails := [], responses := [], audits := [], nextRespId := 0 }
      7).1.audits =
      [{ fetched := 4, processed := 4, errors := none, duration := 7 }] ∧
    (sync_endpoint
      [FetchOutcome.fetched (mkEd "b1".data),
       FetchOutcome.fetched (mkEd "b2".data),
       FetchOutcome.fetched (mkEd "b3".data),
       FetchOutcome.fetched (mkEd "b4".data),
       FetchOutcome.fetched (mkEd "b5".data)]
      (fun e => if e.id == "b3".data then .error (.exn "boom".data)
                else enrichOkOracle e)
      true { emails := [], responses := [], audits := [], nextRespId := 0 }
      7).1.audits =
      [{ fetched := 5, processed := 4,
         errors := some [errString "b3".data "boom".data], duration := 7 }] := by
  refine ⟨?_, by decide, by decide⟩
  intro fo enrich cf st dur
  simp only [sync_endpoint, sync_emails, log_sync]
  rw [syncLoop_audits]

end MailAgent
